import Mathlib

/-!
Shallow embedding of the post-quantum key-lifecycle core of the
`qbitel-qsgw` repository (crates `quantun-types` and `quantun-crypto`).

Byte sequences (`Vec<u8>` / `&[u8]`) are modelled as `List Nat`.  The
underlying lattice / hash-signature / X25519 / SHA-256 primitives live in
external crates (`ml-kem`, `ml-dsa`, `slh-dsa`, `x25519-dalek`, `sha2`) and
are treated by the repository as opaque, already-certified operations; they
are modelled here as explicit structures of functions over byte sequences,
and their documented contracts (KEM correctness, signature correctness,
Diffie-Hellman commutativity, fixed digest length, fixed encoding sizes)
are stated as separate `Prop`s used as hypotheses.  Everything else —
dispatch over the variant enumerations, length validation, error
construction and classification, serde field skipping, and the hybrid
KDF — is translated directly from the repository source.
-/

/-- Byte sequences (`Vec<u8>`, `&[u8]`). -/
abbrev Bytes := List Nat

/-- Embeds `quantun_types::MlKemVariant` (src/types/src/algorithm.rs). -/
inductive MlKemVariant
  | MlKem512
  | MlKem768
  | MlKem1024
deriving DecidableEq

/-- Embeds `quantun_types::MlDsaVariant` (src/types/src/algorithm.rs). -/
inductive MlDsaVariant
  | MlDsa44
  | MlDsa65
  | MlDsa87
deriving DecidableEq

/-- Embeds `quantun_types::SlhDsaVariant` (src/types/src/algorithm.rs). -/
inductive SlhDsaVariant
  | Sha2_128s
  | Sha2_128f
  | Sha2_192s
  | Sha2_192f
  | Sha2_256s
  | Sha2_256f
deriving DecidableEq

/-- Embeds `quantun_types::HybridVariant` (src/types/src/algorithm.rs). -/
inductive HybridVariant
  | X25519MlKem768
  | Ed25519MlDsa65
deriving DecidableEq

/-- Embeds `MlKemVariant::key_sizes` — (public_key_bytes, secret_key_bytes). -/
def MlKemVariant.key_sizes : MlKemVariant → Nat × Nat
  | .MlKem512 => (800, 1632)
  | .MlKem768 => (1184, 2400)
  | .MlKem1024 => (1568, 3168)

/-- Embeds `MlKemVariant::ciphertext_size`. -/
def MlKemVariant.ciphertext_size : MlKemVariant → Nat
  | .MlKem512 => 768
  | .MlKem768 => 1088
  | .MlKem1024 => 1568

/-- Embeds `MlDsaVariant::key_sizes` — (public_key_bytes, secret_key_bytes). -/
def MlDsaVariant.key_sizes : MlDsaVariant → Nat × Nat
  | .MlDsa44 => (1312, 2560)
  | .MlDsa65 => (1952, 4032)
  | .MlDsa87 => (2592, 4896)

/-- Embeds `MlDsaVariant::signature_size`. -/
def MlDsaVariant.signature_size : MlDsaVariant → Nat
  | .MlDsa44 => 2420
  | .MlDsa65 => 3309
  | .MlDsa87 => 4627

/-- Embeds `SlhDsaVariant::key_sizes` — (public_key_bytes, secret_key_bytes). -/
def SlhDsaVariant.key_sizes : SlhDsaVariant → Nat × Nat
  | .Sha2_128s => (32, 64)
  | .Sha2_128f => (32, 64)
  | .Sha2_192s => (48, 96)
  | .Sha2_192f => (48, 96)
  | .Sha2_256s => (64, 128)
  | .Sha2_256f => (64, 128)

/-- Embeds `SlhDsaVariant::signature_size`. -/
def SlhDsaVariant.signature_size : SlhDsaVariant → Nat
  | .Sha2_128s => 7856
  | .Sha2_128f => 17088
  | .Sha2_192s => 16224
  | .Sha2_192f => 35664
  | .Sha2_256s => 29792
  | .Sha2_256f => 49856

/-- Embeds `SlhDsaVariant::is_small`. -/
def SlhDsaVariant.is_small : SlhDsaVariant → Bool
  | .Sha2_128s => true
  | .Sha2_192s => true
  | .Sha2_256s => true
  | _ => false

/-- Embeds `Display for MlKemVariant`. -/
def MlKemVariant.display : MlKemVariant → String
  | .MlKem512 => "ML-KEM-512"
  | .MlKem768 => "ML-KEM-768"
  | .MlKem1024 => "ML-KEM-1024"

/-- Embeds `Display for MlDsaVariant`. -/
def MlDsaVariant.display : MlDsaVariant → String
  | .MlDsa44 => "ML-DSA-44"
  | .MlDsa65 => "ML-DSA-65"
  | .MlDsa87 => "ML-DSA-87"

/-- Embeds `Display for SlhDsaVariant`. -/
def SlhDsaVariant.display : SlhDsaVariant → String
  | .Sha2_128s => "SLH-DSA-SHA2-128s"
  | .Sha2_128f => "SLH-DSA-SHA2-128f"
  | .Sha2_192s => "SLH-DSA-SHA2-192s"
  | .Sha2_192f => "SLH-DSA-SHA2-192f"
  | .Sha2_256s => "SLH-DSA-SHA2-256s"
  | .Sha2_256f => "SLH-DSA-SHA2-256f"

/-- Embeds `quantun_crypto::error::CryptoError` (src/crypto/src/error.rs). -/
inductive CryptoError
  | KeyGeneration (algorithm : String) (reason : String)
  | Encapsulation (msg : String)
  | Decapsulation (msg : String)
  | Signing (msg : String)
  | Verification (msg : String)
  | InvalidKeyMaterial (msg : String)
  | UnsupportedAlgorithm (msg : String)
  | Serialization (msg : String)
  | Rng (msg : String)
deriving DecidableEq

/-- The error kinds of §7 of the design, i.e. the constructors of
`CryptoError` with the message payloads erased. -/
inductive ErrKind
  | keyGeneration
  | encapsulation
  | decapsulation
  | signing
  | verification
  | invalidKeyMaterial
  | unsupportedAlgorithm
  | serialization
  | rng
deriving DecidableEq

/-- Kind (constructor) of a `CryptoError`. -/
def CryptoError.kind : CryptoError → ErrKind
  | .KeyGeneration _ _ => .keyGeneration
  | .Encapsulation _ => .encapsulation
  | .Decapsulation _ => .decapsulation
  | .Signing _ => .signing
  | .Verification _ => .verification
  | .InvalidKeyMaterial _ => .invalidKeyMaterial
  | .UnsupportedAlgorithm _ => .unsupportedAlgorithm
  | .Serialization _ => .serialization
  | .Rng _ => .rng

/-- Embeds `quantun_crypto::error::CryptoResult`. -/
abbrev CryptoResult (α : Type) := Except CryptoError α

/-- Kind of the error carried by a `CryptoResult`, `none` on success. -/
def resultErrKind {α : Type} : CryptoResult α → Option ErrKind
  | .error e => some e.kind
  | .ok _ => none

/-- Model of the OS CSPRNG (`getrandom::fill` into an `n`-byte buffer): the
entropy source is an oracle `os : Nat → Nat` of which the fill reads the
first `n` bytes. -/
def getrandomFill (os : Nat → Nat) (n : Nat) : Bytes :=
  (List.range n).map os

theorem getrandomFill_length (os : Nat → Nat) (n : Nat) :
    (getrandomFill os n).length = n := by
  simp [getrandomFill]

/-! ## ML-KEM (src/crypto/src/mlkem.rs) -/

/-- Functional model of the `ml-kem` crate's per-variant primitives, over
the serialized byte forms the repository stores.  `keygen` is
`generate_keypair_from_rng` followed by `to_bytes` on both halves,
returning `(dk_bytes, ek_bytes)`; `ekValid`/`dkValid` are the success of
`EncapsulationKey::new_from_slice` / `DecapsulationKey::new_from_slice`;
`encaps` is `new_from_slice` + `encapsulate_with_rng` + `to_vec`, as a
function of the ek bytes and the entropy drawn; `decaps` is
`new_from_slice` + `decapsulate_slice`, `none` on primitive rejection. -/
structure MlKemPrim where
  keygen : MlKemVariant → Bytes → Bytes × Bytes
  ekValid : MlKemVariant → Bytes → Bool
  dkValid : MlKemVariant → Bytes → Bool
  encaps : MlKemVariant → Bytes → Bytes → Bytes × Bytes
  decaps : MlKemVariant → Bytes → Bytes → Option Bytes

/-- FIPS 203 correctness contract of the `ml-kem` crate: a generated key
pair re-parses on both halves, and decapsulating an honestly produced
ciphertext yields the encapsulated shared secret. -/
def MlKemPrim.Correct (p : MlKemPrim) : Prop :=
  ∀ (v : MlKemVariant) (e0 e1 : Bytes),
    p.ekValid v (p.keygen v e0).2 = true ∧
    p.dkValid v (p.keygen v e0).1 = true ∧
    p.decaps v (p.keygen v e0).1 (p.encaps v (p.keygen v e0).2 e1).1
      = some (p.encaps v (p.keygen v e0).2 e1).2

/-- Size contract of the `ml-kem` crate's encapsulation-key encoding: the
`to_bytes` form of a generated encapsulation key has the FIPS 203 size
published by the Algorithm Catalog. -/
def MlKemPrim.EkSized (p : MlKemPrim) : Prop :=
  ∀ (v : MlKemVariant) (e : Bytes),
    ((p.keygen v e).2).length = v.key_sizes.1

/-- Embeds `MlKemKeyPair` (mlkem.rs).  `secret_key` carries `#[serde(skip)]`. -/
structure MlKemKeyPair where
  variant : MlKemVariant
  public_key : Bytes
  secret_key : Bytes
deriving DecidableEq

/-- Embeds `MlKemEncapsulated` (mlkem.rs).  `shared_secret` carries
`#[serde(skip)]`. -/
structure MlKemEncapsulated where
  ciphertext : Bytes
  shared_secret : Bytes
deriving DecidableEq

/-- Embeds `make_keypair` (mlkem.rs): constructs the key pair from raw bytes (the
`tracing::debug!` call has no effect on the value). -/
def mlkemMakeKeypair (variant : MlKemVariant) (public_key secret_key : Bytes) :
    MlKemKeyPair :=
  { variant := variant, public_key := public_key, secret_key := secret_key }

/-- Embeds `MlKemKeyPair::generate`.  The entropy the OS CSPRNG feeds to the
primitive is the explicit argument `e`. -/
def MlKemKeyPair.generate (p : MlKemPrim) (variant : MlKemVariant) (e : Bytes) :
    CryptoResult MlKemKeyPair :=
  match variant with
  | .MlKem512 =>
      let dkek := p.keygen .MlKem512 e
      .ok (mlkemMakeKeypair .MlKem512 dkek.2 dkek.1)
  | .MlKem768 =>
      let dkek := p.keygen .MlKem768 e
      .ok (mlkemMakeKeypair .MlKem768 dkek.2 dkek.1)
  | .MlKem1024 =>
      let dkek := p.keygen .MlKem1024 e
      .ok (mlkemMakeKeypair .MlKem1024 dkek.2 dkek.1)

/-- Embeds `MlKemKeyPair::generate_with_rng`: accepts a caller-supplied RNG of any
type and delegates to `generate` (the parameter `_rng` is unused in the
source). -/
def MlKemKeyPair.generate_with_rng {R : Type} (p : MlKemPrim)
    (variant : MlKemVariant) (_rng : R) (e : Bytes) : CryptoResult MlKemKeyPair :=
  MlKemKeyPair.generate p variant e

/-- One arm of `MlKemKeyPair::encapsulate`: `new_from_slice` on the stored
public key (failure mapped to `CryptoError::Encapsulation`), then
`encapsulate_with_rng`. -/
def mlkemEncapsArm (p : MlKemPrim) (v : MlKemVariant) (public_key e : Bytes) :
    CryptoResult MlKemEncapsulated :=
  if p.ekValid v public_key then
    let ctss := p.encaps v public_key e
    .ok { ciphertext := ctss.1, shared_secret := ctss.2 }
  else
    .error (.Encapsulation ("invalid " ++ v.display ++
      " encapsulation key (" ++ toString public_key.length ++ " bytes)"))

/-- Embeds `MlKemKeyPair::encapsulate`. -/
def MlKemKeyPair.encapsulate (p : MlKemPrim) (kp : MlKemKeyPair) (e : Bytes) :
    CryptoResult MlKemEncapsulated :=
  match kp.variant with
  | .MlKem512 => mlkemEncapsArm p .MlKem512 kp.public_key e
  | .MlKem768 => mlkemEncapsArm p .MlKem768 kp.public_key e
  | .MlKem1024 => mlkemEncapsArm p .MlKem1024 kp.public_key e

/-- One arm of `MlKemKeyPair::decapsulate`: `new_from_slice` on the stored
secret key, then `decapsulate_slice`; both failures mapped to
`CryptoError::Decapsulation`. -/
def mlkemDecapsArm (p : MlKemPrim) (v : MlKemVariant)
    (secret_key ciphertext : Bytes) : CryptoResult Bytes :=
  if p.dkValid v secret_key then
    match p.decaps v secret_key ciphertext with
    | some ss => .ok ss
    | none =>
        .error (.Decapsulation (v.display ++ " decapsulation failed (ct " ++
          toString ciphertext.length ++ " bytes)"))
  else
    .error (.Decapsulation ("invalid " ++ v.display ++
      " decapsulation key (" ++ toString secret_key.length ++ " bytes)"))

/-- Embeds `MlKemKeyPair::decapsulate`. -/
def MlKemKeyPair.decapsulate (p : MlKemPrim) (kp : MlKemKeyPair)
    (ciphertext : Bytes) : CryptoResult Bytes :=
  match kp.variant with
  | .MlKem512 => mlkemDecapsArm p .MlKem512 kp.secret_key ciphertext
  | .MlKem768 => mlkemDecapsArm p .MlKem768 kp.secret_key ciphertext
  | .MlKem1024 => mlkemDecapsArm p .MlKem1024 kp.secret_key ciphertext

/-! ## ML-DSA (src/crypto/src/mldsa.rs) -/

/-- Functional model of the `ml-dsa` crate's per-variant primitives.  A
typed `KeyPair<P>` produced by `from_seed` is represented by its 32-byte
seed (`to_seed` is documented and tested to return exactly the seed the
pair was derived from).  `vkEncode` is `verifying_key().encode()`;
`vkLen` is the fixed byte size of the encoded verifying-key array that
`vk_bytes.try_into()` targets in `verify_impl`; `sign` is
`SigningKey::from_seed` + `Signer::sign` + `encode` (deterministic);
`sigOk` is the success of `Signature::try_from`; `verify` is
`VerifyingKey::decode` + `Verifier::verify`, `true` on `Ok(())`. -/
structure MlDsaPrim where
  vkEncode : MlDsaVariant → Bytes → Bytes
  vkLen : MlDsaVariant → Nat
  sign : MlDsaVariant → Bytes → Bytes → Bytes
  sigOk : MlDsaVariant → Bytes → Bool
  verify : MlDsaVariant → Bytes → Bytes → Bytes → Bool

/-- FIPS 204 correctness contract of the `ml-dsa` crate: the encoded
verifying key has the fixed encoded size, and a signature produced from a
seed-derived signing key decodes structurally and verifies against the
matching verifying key. -/
def MlDsaPrim.SignCorrect (p : MlDsaPrim) : Prop :=
  ∀ (v : MlDsaVariant) (seed msg : Bytes),
    (p.vkEncode v seed).length = p.vkLen v ∧
    p.sigOk v (p.sign v seed msg) = true ∧
    p.verify v (p.vkEncode v seed) msg (p.sign v seed msg) = true

/-- Size contract of the `ml-dsa` crate's verifying-key encoding: the
encoded verifying key has the FIPS 204 public-key size published by the
Algorithm Catalog. -/
def MlDsaPrim.VkSized (p : MlDsaPrim) : Prop :=
  ∀ (v : MlDsaVariant) (seed : Bytes),
    (p.vkEncode v seed).length = v.key_sizes.1

/-- Embeds `MlDsaKeyPair` (mldsa.rs).  `secret_key` is the 32-byte seed and
carries `#[serde(skip)]`. -/
structure MlDsaKeyPair where
  variant : MlDsaVariant
  public_key : Bytes
  secret_key : Bytes
deriving DecidableEq

/-- Embeds `MlDsaSignature` (mldsa.rs). -/
structure MlDsaSignature where
  signature : Bytes
  variant : MlDsaVariant
deriving DecidableEq

/-- Embeds `make_keypair` (mldsa.rs): stores `verifying_key().encode()` as the
public key and `to_seed()` — i.e. the generating seed — as the secret
key. -/
def mldsaMakeKeypair (p : MlDsaPrim) (variant : MlDsaVariant) (seed : Bytes) :
    MlDsaKeyPair :=
  { variant := variant, public_key := p.vkEncode variant seed, secret_key := seed }

/-- Embeds `MlDsaKeyPair::generate`: a 32-byte seed drawn from the OS CSPRNG via
`getrandom::fill` on a `[u8; 32]` buffer, expanded per variant. -/
def MlDsaKeyPair.generate (p : MlDsaPrim) (variant : MlDsaVariant)
    (os : Nat → Nat) : CryptoResult MlDsaKeyPair :=
  let seed := getrandomFill os 32
  match variant with
  | .MlDsa44 => .ok (mldsaMakeKeypair p .MlDsa44 seed)
  | .MlDsa65 => .ok (mldsaMakeKeypair p .MlDsa65 seed)
  | .MlDsa87 => .ok (mldsaMakeKeypair p .MlDsa87 seed)

/-- Embeds `MlDsaKeyPair::generate_with_rng`: accepts a caller-supplied RNG of
any type and delegates to `generate` (the parameter `_rng` is unused in
the source). -/
def MlDsaKeyPair.generate_with_rng {R : Type} (p : MlDsaPrim)
    (variant : MlDsaVariant) (_rng : R) (os : Nat → Nat) :
    CryptoResult MlDsaKeyPair :=
  MlDsaKeyPair.generate p variant os

/-- Embeds `sign_impl` (mldsa.rs): `seed_bytes.try_into()` to `[u8; 32]` fails
exactly when the stored seed is not 32 bytes (`CryptoError::Signing`);
otherwise the seed-derived signing key signs the message. -/
def mldsaSignImpl (p : MlDsaPrim) (seed_bytes message : Bytes)
    (variant : MlDsaVariant) : CryptoResult MlDsaSignature :=
  if seed_bytes.length = 32 then
    .ok { signature := p.sign variant seed_bytes message, variant := variant }
  else
    .error (.Signing ("invalid ML-DSA seed (" ++ toString seed_bytes.length ++
      " bytes, expected 32)"))

/-- Embeds `MlDsaKeyPair::sign`. -/
def MlDsaKeyPair.sign (p : MlDsaPrim) (kp : MlDsaKeyPair) (message : Bytes) :
    CryptoResult MlDsaSignature :=
  match kp.variant with
  | .MlDsa44 => mldsaSignImpl p kp.secret_key message .MlDsa44
  | .MlDsa65 => mldsaSignImpl p kp.secret_key message .MlDsa65
  | .MlDsa87 => mldsaSignImpl p kp.secret_key message .MlDsa87

/-- Embeds `verify_impl` (mldsa.rs): `vk_bytes.try_into()` to the fixed encoded
array fails exactly when the length is wrong (`CryptoError::Verification`);
`Signature::try_from` failure is `CryptoError::Verification`; a decoded
pair is checked cryptographically, `Ok(true)` / `Ok(false)`. -/
def mldsaVerifyImpl (p : MlDsaPrim) (vk_bytes message sig_bytes : Bytes)
    (variant : MlDsaVariant) : CryptoResult Bool :=
  if vk_bytes.length = p.vkLen variant then
    if p.sigOk variant sig_bytes then
      .ok (p.verify variant vk_bytes message sig_bytes)
    else
      .error (.Verification ("invalid signature (" ++
        toString sig_bytes.length ++ " bytes)"))
  else
    .error (.Verification ("invalid verifying key (" ++
      toString vk_bytes.length ++ " bytes)"))

/-- Embeds `MlDsaKeyPair::verify`: variant mismatch is rejected up front with
`CryptoError::Verification` before any decoding. -/
def MlDsaKeyPair.verify (p : MlDsaPrim) (kp : MlDsaKeyPair) (message : Bytes)
    (sig : MlDsaSignature) : CryptoResult Bool :=
  if sig.variant ≠ kp.variant then
    .error (.Verification ("variant mismatch: key is " ++ kp.variant.display ++
      ", signature is " ++ sig.variant.display))
  else
    match kp.variant with
    | .MlDsa44 => mldsaVerifyImpl p kp.public_key message sig.signature .MlDsa44
    | .MlDsa65 => mldsaVerifyImpl p kp.public_key message sig.signature .MlDsa65
    | .MlDsa87 => mldsaVerifyImpl p kp.public_key message sig.signature .MlDsa87

/-! ## SLH-DSA (src/crypto/src/slhdsa.rs) -/

/-- Functional model of the `slh-dsa` crate's per-parameter-set
primitives over serialized byte forms.  `keygen` is `SigningKey::new`
with the OS-backed RNG, returning `(sk.to_vec(), vk.to_vec())`;
`skOk`/`vkOk`/`sigOk` are the successes of the respective `try_from`
decoders; `trySign` is `try_sign_with_rng` (randomized, so it also takes
the entropy drawn), `none` on failure; `verify` is `Verifier::verify`,
`true` on `Ok(())`. -/
structure SlhDsaPrim where
  keygen : SlhDsaVariant → Bytes → Bytes × Bytes
  skOk : SlhDsaVariant → Bytes → Bool
  vkOk : SlhDsaVariant → Bytes → Bool
  sigOk : SlhDsaVariant → Bytes → Bool
  trySign : SlhDsaVariant → Bytes → Bytes → Bytes → Option Bytes
  verify : SlhDsaVariant → Bytes → Bytes → Bytes → Bool

/-- FIPS 205 correctness contract of the `slh-dsa` crate: generated key
halves re-parse, signing with a generated signing key succeeds, and the
produced signature decodes structurally and verifies against the matching
verifying key. -/
def SlhDsaPrim.SignCorrect (q : SlhDsaPrim) : Prop :=
  ∀ (v : SlhDsaVariant) (e0 e1 msg : Bytes),
    q.skOk v (q.keygen v e0).1 = true ∧
    q.vkOk v (q.keygen v e0).2 = true ∧
    (∃ sig, q.trySign v (q.keygen v e0).1 e1 msg = some sig) ∧
    (∀ sig, q.trySign v (q.keygen v e0).1 e1 msg = some sig →
      q.sigOk v sig = true ∧ q.verify v (q.keygen v e0).2 msg sig = true)

/-- Size contract of the `slh-dsa` crate's key encodings: `to_vec` of a
generated signing/verifying key has the FIPS 205 sizes published by the
Algorithm Catalog. -/
def SlhDsaPrim.KeySized (q : SlhDsaPrim) : Prop :=
  ∀ (v : SlhDsaVariant) (e : Bytes),
    ((q.keygen v e).2).length = v.key_sizes.1 ∧
    ((q.keygen v e).1).length = v.key_sizes.2

/-- Embeds `SlhDsaKeyPair` (slhdsa.rs).  `secret_key` is the fully-expanded
signing key and carries `#[serde(skip)]`. -/
structure SlhDsaKeyPair where
  variant : SlhDsaVariant
  public_key : Bytes
  secret_key : Bytes
deriving DecidableEq

/-- Embeds `SlhDsaSignature` (slhdsa.rs). -/
structure SlhDsaSignature where
  signature : Bytes
  variant : SlhDsaVariant
deriving DecidableEq

/-- Embeds `generate_typed` (slhdsa.rs). -/
def slhdsaGenerateTyped (q : SlhDsaPrim) (variant : SlhDsaVariant) (e : Bytes) :
    CryptoResult SlhDsaKeyPair :=
  let skvk := q.keygen variant e
  .ok { variant := variant, public_key := skvk.2, secret_key := skvk.1 }

/-- Embeds `SlhDsaKeyPair::generate`. -/
def SlhDsaKeyPair.generate (q : SlhDsaPrim) (variant : SlhDsaVariant)
    (e : Bytes) : CryptoResult SlhDsaKeyPair :=
  match variant with
  | .Sha2_128s => slhdsaGenerateTyped q .Sha2_128s e
  | .Sha2_128f => slhdsaGenerateTyped q .Sha2_128f e
  | .Sha2_192s => slhdsaGenerateTyped q .Sha2_192s e
  | .Sha2_192f => slhdsaGenerateTyped q .Sha2_192f e
  | .Sha2_256s => slhdsaGenerateTyped q .Sha2_256s e
  | .Sha2_256f => slhdsaGenerateTyped q .Sha2_256f e

/-- Embeds `SlhDsaKeyPair::generate_with_rng`: accepts a caller-supplied RNG of
any type and delegates to `generate` (the parameter `_rng` is unused in
the source). -/
def SlhDsaKeyPair.generate_with_rng {R : Type} (q : SlhDsaPrim)
    (variant : SlhDsaVariant) (_rng : R) (e : Bytes) :
    CryptoResult SlhDsaKeyPair :=
  SlhDsaKeyPair.generate q variant e

/-- Embeds `sign_typed` (slhdsa.rs): `SigningKey::try_from` failure is
`CryptoError::Signing`; `try_sign_with_rng` failure is
`CryptoError::Signing`. -/
def slhdsaSignTyped (q : SlhDsaPrim) (sk_bytes e message : Bytes)
    (variant : SlhDsaVariant) : CryptoResult SlhDsaSignature :=
  if q.skOk variant sk_bytes then
    match q.trySign variant sk_bytes e message with
    | some sig => .ok { signature := sig, variant := variant }
    | none => .error (.Signing "SLH-DSA signing failed")
  else
    .error (.Signing ("invalid SLH-DSA signing key (" ++
      toString sk_bytes.length ++ " bytes)"))

/-- Embeds `SlhDsaKeyPair::sign` (randomized: the entropy drawn by
`try_sign_with_rng` is the explicit argument `e`). -/
def SlhDsaKeyPair.sign (q : SlhDsaPrim) (kp : SlhDsaKeyPair) (e message : Bytes) :
    CryptoResult SlhDsaSignature :=
  match kp.variant with
  | .Sha2_128s => slhdsaSignTyped q kp.secret_key e message .Sha2_128s
  | .Sha2_128f => slhdsaSignTyped q kp.secret_key e message .Sha2_128f
  | .Sha2_192s => slhdsaSignTyped q kp.secret_key e message .Sha2_192s
  | .Sha2_192f => slhdsaSignTyped q kp.secret_key e message .Sha2_192f
  | .Sha2_256s => slhdsaSignTyped q kp.secret_key e message .Sha2_256s
  | .Sha2_256f => slhdsaSignTyped q kp.secret_key e message .Sha2_256f

/-- Embeds `verify_typed` (slhdsa.rs): `VerifyingKey::try_from` and
`Signature::try_from` failures are `CryptoError::Verification`; a decoded
pair is checked cryptographically, `Ok(true)` / `Ok(false)`. -/
def slhdsaVerifyTyped (q : SlhDsaPrim) (vk_bytes message sig_bytes : Bytes)
    (variant : SlhDsaVariant) : CryptoResult Bool :=
  if q.vkOk variant vk_bytes then
    if q.sigOk variant sig_bytes then
      .ok (q.verify variant vk_bytes message sig_bytes)
    else
      .error (.Verification ("invalid SLH-DSA signature (" ++
        toString sig_bytes.length ++ " bytes)"))
  else
    .error (.Verification ("invalid SLH-DSA verifying key (" ++
      toString vk_bytes.length ++ " bytes)"))

/-- Embeds `SlhDsaKeyPair::verify`: variant mismatch is rejected up front with
`CryptoError::Verification` before any decoding. -/
def SlhDsaKeyPair.verify (q : SlhDsaPrim) (kp : SlhDsaKeyPair) (message : Bytes)
    (sig : SlhDsaSignature) : CryptoResult Bool :=
  if sig.variant ≠ kp.variant then
    .error (.Verification ("variant mismatch: key is " ++ kp.variant.display ++
      ", signature is " ++ sig.variant.display))
  else
    match kp.variant with
    | .Sha2_128s => slhdsaVerifyTyped q kp.public_key message sig.signature .Sha2_128s
    | .Sha2_128f => slhdsaVerifyTyped q kp.public_key message sig.signature .Sha2_128f
    | .Sha2_192s => slhdsaVerifyTyped q kp.public_key message sig.signature .Sha2_192s
    | .Sha2_192f => slhdsaVerifyTyped q kp.public_key message sig.signature .Sha2_192f
    | .Sha2_256s => slhdsaVerifyTyped q kp.public_key message sig.signature .Sha2_256s
    | .Sha2_256f => slhdsaVerifyTyped q kp.public_key message sig.signature .Sha2_256f

/-! ## Hybrid composer (src/crypto/src/hybrid.rs) -/

/-- Functional model of `x25519-dalek` over 32-byte sequences.  `pk` is
`PublicKey::from(&StaticSecret::from(secret_bytes))` as a function of the
raw secret bytes (clamping happens inside); `dh` is
`StaticSecret::from(a).diffie_hellman(&PublicKey::from(b)).as_bytes()`. -/
structure X25519Prim where
  pk : Bytes → Bytes
  dh : Bytes → Bytes → Bytes

/-- X25519 public keys are 32 bytes. -/
def X25519Prim.PkLen32 (x : X25519Prim) : Prop :=
  ∀ b : Bytes, (x.pk b).length = 32

/-- The Diffie-Hellman exchange property of X25519: both sides of an
honest exchange derive the same shared secret. -/
def X25519Prim.DhComm (x : X25519Prim) : Prop :=
  ∀ a b : Bytes, x.dh a (x.pk b) = x.dh b (x.pk a)

/-- Functional model of the `sha2` crate's SHA-256: a single digest
function over byte sequences. -/
structure Sha256Prim where
  digest : Bytes → Bytes

/-- SHA-256 digests are 32 bytes for every input. -/
def Sha256Prim.DigestLen32 (h : Sha256Prim) : Prop :=
  ∀ b : Bytes, (h.digest b).length = 32

/-- Streaming-hasher state (`Sha256::new()` starts empty); the `sha2`
crate's incremental API hashes the concatenation of all updates. -/
def sha256New : Bytes := []

/-- Embeds `hasher.update(b)`: absorb `b` after everything absorbed so far. -/
def sha256Update (state b : Bytes) : Bytes := state ++ b

/-- Embeds `hasher.finalize()`: digest of everything absorbed. -/
def sha256Finalize (h : Sha256Prim) (state : Bytes) : Bytes := h.digest state

/-- The domain-separation tag `b"quantun-hybrid-kem-v1"` (hybrid.rs,
`combine_secrets`), as its ASCII byte values. -/
def hybridDomainTag : Bytes := "quantun-hybrid-kem-v1".toList.map Char.toNat

/-- Embeds `combine_secrets` (hybrid.rs): SHA-256 over domain tag, classical
shared secret, then PQC shared secret, via the streaming API. -/
def combine_secrets (h : Sha256Prim) (classical pqc : Bytes) : Bytes :=
  sha256Finalize h
    (sha256Update (sha256Update (sha256Update sha256New hybridDomainTag) classical) pqc)

/-- Embeds `HybridKemKeyPair` (hybrid.rs).  `classical_secret` carries
`#[serde(skip)]`. -/
structure HybridKemKeyPair where
  variant : HybridVariant
  classical_public : Bytes
  classical_secret : Option Bytes
  pqc_keypair : MlKemKeyPair
deriving DecidableEq

/-- Embeds `HybridEncapsulated` (hybrid.rs).  `shared_secret` carries
`#[serde(skip)]`. -/
structure HybridEncapsulated where
  classical_public : Bytes
  pqc_ciphertext : Bytes
  shared_secret : Bytes
deriving DecidableEq

/-- Embeds `HybridKemKeyPair::generate`: 32 bytes from `getrandom::fill` become
the X25519 static secret, an ML-KEM-768 pair is generated independently
(with entropy `pqcEntropy`), and the variant is `X25519MlKem768`. -/
def HybridKemKeyPair.generate (x : X25519Prim) (p : MlKemPrim)
    (os : Nat → Nat) (pqcEntropy : Bytes) : CryptoResult HybridKemKeyPair :=
  let key_bytes := getrandomFill os 32
  match MlKemKeyPair.generate p .MlKem768 pqcEntropy with
  | .error e => .error e
  | .ok pqc_keypair =>
      .ok { variant := .X25519MlKem768,
            classical_public := x.pk key_bytes,
            classical_secret := some key_bytes,
            pqc_keypair := pqc_keypair }

/-- Embeds `HybridKemKeyPair::encapsulate`: fresh ephemeral X25519 bytes from the
OS CSPRNG; the stored classical public key must convert to `[u8; 32]`
(`CryptoError::InvalidKeyMaterial` otherwise); then the classical exchange,
the ML-KEM encapsulation (entropy `kemEntropy`), and the KDF. -/
def HybridKemKeyPair.encapsulate (x : X25519Prim) (p : MlKemPrim)
    (h : Sha256Prim) (kp : HybridKemKeyPair) (os : Nat → Nat)
    (kemEntropy : Bytes) : CryptoResult HybridEncapsulated :=
  let ephemeral_bytes := getrandomFill os 32
  if kp.classical_public.length = 32 then
    let classical_shared := x.dh ephemeral_bytes kp.classical_public
    match MlKemKeyPair.encapsulate p kp.pqc_keypair kemEntropy with
    | .error e => .error e
    | .ok pqc_enc =>
        .ok { classical_public := x.pk ephemeral_bytes,
              pqc_ciphertext := pqc_enc.ciphertext,
              shared_secret := combine_secrets h classical_shared pqc_enc.shared_secret }
  else
    .error (.InvalidKeyMaterial "X25519 public key must be 32 bytes")

/-- Embeds `HybridKemKeyPair::decapsulate`: the absent classical secret is
rejected first (`InvalidKeyMaterial`), then the stored secret and the
caller-supplied ephemeral public key must each be exactly 32 bytes
(`InvalidKeyMaterial`), then the classical exchange, the ML-KEM
decapsulation, and the KDF. -/
def HybridKemKeyPair.decapsulate (x : X25519Prim) (p : MlKemPrim)
    (h : Sha256Prim) (kp : HybridKemKeyPair)
    (ephemeral_public_bytes pqc_ciphertext : Bytes) : CryptoResult Bytes :=
  match kp.classical_secret with
  | none => .error (.InvalidKeyMaterial "secret key not available")
  | some secret_bytes =>
      if secret_bytes.length = 32 then
        if ephemeral_public_bytes.length = 32 then
          let classical_shared := x.dh secret_bytes ephemeral_public_bytes
          match MlKemKeyPair.decapsulate p kp.pqc_keypair pqc_ciphertext with
          | .error e => .error e
          | .ok pqc_shared => .ok (combine_secrets h classical_shared pqc_shared)
        else
          .error (.InvalidKeyMaterial "ephemeral public key must be 32 bytes")
      else
        .error (.InvalidKeyMaterial "X25519 secret must be 32 bytes")

/-! ## Serialization boundary (serde derive with `#[serde(skip)]`) -/

/-- The serialized form of `MlKemKeyPair`: serde emits every field except
the `#[serde(skip)]` secret key. -/
structure MlKemKeyPairWire where
  variant : MlKemVariant
  public_key : Bytes
deriving DecidableEq

/-- Serde serialization of `MlKemKeyPair` (skips `secret_key`). -/
def MlKemKeyPair.serialize (kp : MlKemKeyPair) : MlKemKeyPairWire :=
  { variant := kp.variant, public_key := kp.public_key }

/-- Serde deserialization of `MlKemKeyPair`: the skipped `secret_key`
takes `Vec::default()`, the empty byte sequence. -/
def MlKemKeyPair.deserialize (w : MlKemKeyPairWire) : MlKemKeyPair :=
  { variant := w.variant, public_key := w.public_key, secret_key := [] }

/-- The serialized form of `MlKemEncapsulated` (skips `shared_secret`). -/
structure MlKemEncapsulatedWire where
  ciphertext : Bytes
deriving DecidableEq

/-- Serde serialization of `MlKemEncapsulated`. -/
def MlKemEncapsulated.serialize (enc : MlKemEncapsulated) : MlKemEncapsulatedWire :=
  { ciphertext := enc.ciphertext }

/-- Serde deserialization of `MlKemEncapsulated`: the skipped
`shared_secret` takes `Vec::default()`. -/
def MlKemEncapsulated.deserialize (w : MlKemEncapsulatedWire) : MlKemEncapsulated :=
  { ciphertext := w.ciphertext, shared_secret := [] }

/-- The serialized form of `HybridKemKeyPair`: skips `classical_secret`;
the nested `pqc_keypair` serializes through its own wire form. -/
structure HybridKemKeyPairWire where
  variant : HybridVariant
  classical_public : Bytes
  pqc_keypair : MlKemKeyPairWire
deriving DecidableEq

/-- Serde serialization of `HybridKemKeyPair`. -/
def HybridKemKeyPair.serialize (kp : HybridKemKeyPair) : HybridKemKeyPairWire :=
  { variant := kp.variant,
    classical_public := kp.classical_public,
    pqc_keypair := kp.pqc_keypair.serialize }

/-- Serde deserialization of `HybridKemKeyPair`: the skipped
`classical_secret` takes `Option::default() = None`. -/
def HybridKemKeyPair.deserialize (w : HybridKemKeyPairWire) : HybridKemKeyPair :=
  { variant := w.variant,
    classical_public := w.classical_public,
    classical_secret := none,
    pqc_keypair := MlKemKeyPair.deserialize w.pqc_keypair }

/-- The serialized form of `HybridEncapsulated` (skips `shared_secret`). -/
structure HybridEncapsulatedWire where
  classical_public : Bytes
  pqc_ciphertext : Bytes
deriving DecidableEq

/-- Serde serialization of `HybridEncapsulated`. -/
def HybridEncapsulated.serialize (enc : HybridEncapsulated) : HybridEncapsulatedWire :=
  { classical_public := enc.classical_public, pqc_ciphertext := enc.pqc_ciphertext }

/-- Serde deserialization of `HybridEncapsulated`: the skipped
`shared_secret` takes `Vec::default()`. -/
def HybridEncapsulated.deserialize (w : HybridEncapsulatedWire) : HybridEncapsulated :=
  { classical_public := w.classical_public,
    pqc_ciphertext := w.pqc_ciphertext,
    shared_secret := [] }

/-! ## Concrete primitive instances

Small executable instances of the primitive-layer structures, used to
evaluate the embedded operations at concrete inputs.  They satisfy the
stated contracts but are of course not the real FIPS primitives. -/

/-- A toy KEM primitive: the ciphertext doubles as the shared secret. -/
def toyMlKem : MlKemPrim where
  keygen := fun _ e => (e, e)
  ekValid := fun _ _ => true
  dkValid := fun _ _ => true
  encaps := fun _ ek e => (ek ++ e, ek ++ e)
  decaps := fun _ _ ct => some ct

theorem toyMlKem_correct : toyMlKem.Correct :=
  fun _ _ _ => ⟨rfl, rfl, rfl⟩

/-- The toy KEM with a decapsulation key decoder that rejects the empty
byte sequence (as any fixed-size `new_from_slice` decoder does). -/
def cexMlKem : MlKemPrim :=
  { toyMlKem with dkValid := fun _ b => !b.isEmpty }

/-- A toy KEM primitive whose key encodings have the catalog sizes. -/
def sizedMlKem : MlKemPrim :=
  { toyMlKem with keygen := fun v _ => ([], List.replicate v.key_sizes.1 0) }

theorem sizedMlKem_ekSized : sizedMlKem.EkSized := by
  intro v e
  simp [sizedMlKem, toyMlKem]

/-- A toy lattice-signature primitive: a signature is the message with a
marker byte; the empty sequence is structurally invalid. -/
def toyMlDsa : MlDsaPrim where
  vkEncode := fun _ _ => List.replicate 32 0
  vkLen := fun _ => 32
  sign := fun _ _ msg => 7 :: msg
  sigOk := fun _ s => !s.isEmpty
  verify := fun _ _ msg sig => sig == 7 :: msg

theorem toyMlDsa_signCorrect : toyMlDsa.SignCorrect := by
  intro v seed msg
  refine ⟨by simp [toyMlDsa], rfl, by simp [toyMlDsa]⟩

/-- A toy lattice-signature primitive whose verifying-key encoding has the
catalog sizes. -/
def sizedMlDsa : MlDsaPrim :=
  { toyMlDsa with
      vkEncode := fun v _ => List.replicate v.key_sizes.1 0
      vkLen := fun v => v.key_sizes.1 }

theorem sizedMlDsa_vkSized : sizedMlDsa.VkSized := by
  intro v seed
  simp [sizedMlDsa]

/-- A toy hash-signature primitive: a signature is the message with a
marker byte; the empty sequence is structurally invalid. -/
def toySlhDsa : SlhDsaPrim where
  keygen := fun _ e => (0 :: e, 1 :: e)
  skOk := fun _ s => !s.isEmpty
  vkOk := fun _ s => !s.isEmpty
  sigOk := fun _ s => !s.isEmpty
  trySign := fun _ _ _ msg => some (9 :: msg)
  verify := fun _ _ msg sig => sig == 9 :: msg

theorem toySlhDsa_signCorrect : toySlhDsa.SignCorrect := by
  intro v e0 e1 msg
  refine ⟨rfl, rfl, ⟨9 :: msg, rfl⟩, ?_⟩
  intro sig hsig
  simp [toySlhDsa] at hsig
  subst hsig
  exact ⟨rfl, by simp [toySlhDsa]⟩

/-- A toy hash-signature primitive whose key encodings have the catalog
sizes. -/
def sizedSlhDsa : SlhDsaPrim :=
  { toySlhDsa with
      keygen := fun v _ =>
        (List.replicate v.key_sizes.2 0, List.replicate v.key_sizes.1 0) }

theorem sizedSlhDsa_keySized : sizedSlhDsa.KeySized := by
  intro v e
  simp [sizedSlhDsa]

/-- A toy X25519: every public key is the zero 32-byte sequence, so both
sides of an exchange trivially agree. -/
def toyX25519 : X25519Prim where
  pk := fun _ => List.replicate 32 0
  dh := fun _ b => b

theorem toyX25519_pkLen32 : toyX25519.PkLen32 := by
  intro b
  simp [toyX25519]

theorem toyX25519_dhComm : toyX25519.DhComm :=
  fun _ _ => rfl

/-- A toy SHA-256: constant zero digest. -/
def toySha256 : Sha256Prim where
  digest := fun _ => List.replicate 32 0

theorem toySha256_digestLen32 : toySha256.DigestLen32 := by
  intro b
  simp [toySha256]

/-! ## Shared lemmas -/

/-- ML-KEM round trip for a correct primitive: a key pair from `generate`
encapsulates successfully, and decapsulating the produced ciphertext
recovers the produced shared secret. -/
theorem mlkemRoundtripAux (p : MlKemPrim) (hp : p.Correct) (v : MlKemVariant)
    (e0 e1 : Bytes) (kp : MlKemKeyPair)
    (hkp : MlKemKeyPair.generate p v e0 = .ok kp)
    (enc : MlKemEncapsulated)
    (henc : MlKemKeyPair.encapsulate p kp e1 = .ok enc) :
    MlKemKeyPair.decapsulate p kp enc.ciphertext = .ok enc.shared_secret := by
  obtain ⟨h1, h2, h3⟩ := hp v e0 e1
  cases v <;>
    (simp only [MlKemKeyPair.generate, mlkemMakeKeypair, Except.ok.injEq] at hkp
     subst hkp
     simp only [MlKemKeyPair.encapsulate, mlkemEncapsArm, h1, if_true,
       Except.ok.injEq] at henc
     subst henc
     simp only [MlKemKeyPair.decapsulate, mlkemDecapsArm, h2, if_true, h3])

/-! ## Claim theorems -/

/-- C1: For every KEM variant and every key pair produced by
`MlKemKeyPair::generate` for it, if `encapsulate` on that key pair returns
a ciphertext and shared secret, then `decapsulate` on the same key pair
applied to that ciphertext succeeds and returns exactly that shared
secret (for any primitive satisfying the FIPS 203 correctness
contract). -/
theorem mlkem_encapsulate_decapsulate_roundtrip
    (p : MlKemPrim) (hp : p.Correct) (v : MlKemVariant) (e0 e1 : Bytes)
    (kp : MlKemKeyPair) (hkp : MlKemKeyPair.generate p v e0 = .ok kp)
    (enc : MlKemEncapsulated)
    (henc : MlKemKeyPair.encapsulate p kp e1 = .ok enc) :
    MlKemKeyPair.decapsulate p kp enc.ciphertext = .ok enc.shared_secret :=
  mlkemRoundtripAux p hp v e0 e1 kp hkp enc henc

theorem mlkem_roundtrip_instance :
    MlKemKeyPair.generate toyMlKem .MlKem512 [1] =
      .ok { variant := .MlKem512, public_key := [1], secret_key := [1] } ∧
    MlKemKeyPair.encapsulate toyMlKem
        { variant := .MlKem512, public_key := [1], secret_key := [1] } [2] =
      .ok { ciphertext := [1, 2], shared_secret := [1, 2] } ∧
    MlKemKeyPair.decapsulate toyMlKem
        { variant := .MlKem512, public_key := [1], secret_key := [1] } [1, 2] =
      .ok [1, 2] :=
  ⟨rfl, rfl,
    mlkem_encapsulate_decapsulate_roundtrip toyMlKem toyMlKem_correct
      .MlKem512 [1] [2]
      { variant := .MlKem512, public_key := [1], secret_key := [1] } rfl
      { ciphertext := [1, 2], shared_secret := [1, 2] } rfl⟩

/-- C2: For every hybrid key pair produced by
`HybridKemKeyPair::generate` (so its classical secret is present) and
every result `enc` of `encapsulate` on it, `decapsulate` on the same key
pair applied to `enc`'s ephemeral classical public bytes and PQC
ciphertext succeeds and returns exactly `enc`'s combined shared secret
(for primitives satisfying the X25519 exchange property and the FIPS 203
correctness contract). -/
theorem hybrid_encapsulate_decapsulate_roundtrip
    (x : X25519Prim) (hx1 : x.PkLen32) (hx2 : x.DhComm)
    (p : MlKemPrim) (hp : p.Correct) (h : Sha256Prim)
    (os0 : Nat → Nat) (e0 : Bytes) (kp : HybridKemKeyPair)
    (hkp : HybridKemKeyPair.generate x p os0 e0 = .ok kp)
    (os1 : Nat → Nat) (e1 : Bytes) (enc : HybridEncapsulated)
    (henc : HybridKemKeyPair.encapsulate x p h kp os1 e1 = .ok enc) :
    HybridKemKeyPair.decapsulate x p h kp enc.classical_public enc.pqc_ciphertext
      = .ok enc.shared_secret := by
  obtain ⟨hek, hdk, hdec⟩ := hp .MlKem768 e0 e1
  have hpk : ∀ b : Bytes, (x.pk b).length = 32 := hx1
  have hdh := hx2 (getrandomFill os0 32) (getrandomFill os1 32)
  simp only [HybridKemKeyPair.generate, MlKemKeyPair.generate, mlkemMakeKeypair,
    Except.ok.injEq] at hkp
  subst hkp
  simp [HybridKemKeyPair.encapsulate, MlKemKeyPair.encapsulate, mlkemEncapsArm,
    hek, hpk] at henc
  subst henc
  simp [HybridKemKeyPair.decapsulate, getrandomFill_length, hpk,
    MlKemKeyPair.decapsulate, mlkemDecapsArm, hdk, hdec, hdh]

theorem hybrid_roundtrip_instance :
    HybridKemKeyPair.decapsulate toyX25519 toyMlKem toySha256
        { variant := .X25519MlKem768,
          classical_public := List.replicate 32 0,
          classical_secret := some (getrandomFill (fun _ => 5) 32),
          pqc_keypair := { variant := .MlKem768,
                           public_key := getrandomFill (fun _ => 6) 4,
                           secret_key := getrandomFill (fun _ => 6) 4 } }
        (List.replicate 32 0)
        (getrandomFill (fun _ => 6) 4 ++ [7])
      = .ok (List.replicate 32 0) :=
  hybrid_encapsulate_decapsulate_roundtrip toyX25519 toyX25519_pkLen32
    toyX25519_dhComm toyMlKem toyMlKem_correct toySha256
    (fun _ => 5) (getrandomFill (fun _ => 6) 4)
    { variant := .X25519MlKem768,
      classical_public := List.replicate 32 0,
      classical_secret := some (getrandomFill (fun _ => 5) 32),
      pqc_keypair := { variant := .MlKem768,
                       public_key := getrandomFill (fun _ => 6) 4,
                       secret_key := getrandomFill (fun _ => 6) 4 } }
    rfl (fun _ => 8) [7]
    { classical_public := List.replicate 32 0,
      pqc_ciphertext := getrandomFill (fun _ => 6) 4 ++ [7],
      shared_secret := List.replicate 32 0 }
    rfl

/-- C6: For every hybrid key pair whose `classical_secret` is absent,
`decapsulate` returns `InvalidKeyMaterial` and never a secret; the result
is the same for every X25519, KEM and hash primitive and every input, so
no cryptographic operation is involved in producing it. -/
theorem hybrid_decapsulate_missing_secret
    (kp : HybridKemKeyPair) (hnone : kp.classical_secret = none)
    (x : X25519Prim) (p : MlKemPrim) (h : Sha256Prim) (eph ct : Bytes) :
    HybridKemKeyPair.decapsulate x p h kp eph ct
      = .error (.InvalidKeyMaterial "secret key not available") := by
  simp only [HybridKemKeyPair.decapsulate, hnone]

theorem hybrid_decapsulate_missing_secret_instance :
    HybridKemKeyPair.decapsulate toyX25519 toyMlKem toySha256
        { variant := .X25519MlKem768, classical_public := List.replicate 32 0,
          classical_secret := none,
          pqc_keypair := { variant := .MlKem768, public_key := [], secret_key := [] } }
        (List.replicate 32 0) []
      = .error (.InvalidKeyMaterial "secret key not available") :=
  hybrid_decapsulate_missing_secret
    { variant := .X25519MlKem768, classical_public := List.replicate 32 0,
      classical_secret := none,
      pqc_keypair := { variant := .MlKem768, public_key := [], secret_key := [] } }
    rfl toyX25519 toyMlKem toySha256 (List.replicate 32 0) []

/-- C7: The hybrid combined secret is one SHA-256 digest over the
concatenation of the constant domain tag, the classical shared secret and
the PQC shared secret, in that order, and its length is the fixed 32-byte
digest size for every input (the computation does not depend on the
hybrid variant at all). -/
theorem combine_secrets_spec (h : Sha256Prim) (hlen : h.DigestLen32)
    (classical pqc : Bytes) :
    combine_secrets h classical pqc
      = h.digest (hybridDomainTag ++ classical ++ pqc) ∧
    (combine_secrets h classical pqc).length = 32 :=
  ⟨rfl, hlen _⟩

theorem combine_secrets_instance :
    combine_secrets toySha256 [3] [4]
      = toySha256.digest (hybridDomainTag ++ [3] ++ [4]) ∧
    (combine_secrets toySha256 [3] [4]).length = 32 :=
  combine_secrets_spec toySha256 toySha256_digestLen32 [3] [4]

/-- C9: For every variant of every family, `generate_with_rng` never
draws from the caller-supplied generator: its result equals `generate` on
the same OS entropy, and is unchanged when the supplied generator (even
its type) is replaced by any other. -/
theorem generate_with_rng_ignores_rng :
    (∀ (R S : Type) (r : R) (s : S) (p : MlKemPrim) (v : MlKemVariant) (e : Bytes),
      MlKemKeyPair.generate_with_rng p v r e = MlKemKeyPair.generate p v e ∧
      MlKemKeyPair.generate_with_rng p v r e = MlKemKeyPair.generate_with_rng p v s e) ∧
    (∀ (R S : Type) (r : R) (s : S) (p : MlDsaPrim) (v : MlDsaVariant) (os : Nat → Nat),
      MlDsaKeyPair.generate_with_rng p v r os = MlDsaKeyPair.generate p v os ∧
      MlDsaKeyPair.generate_with_rng p v r os = MlDsaKeyPair.generate_with_rng p v s os) ∧
    (∀ (R S : Type) (r : R) (s : S) (q : SlhDsaPrim) (v : SlhDsaVariant) (e : Bytes),
      SlhDsaKeyPair.generate_with_rng q v r e = SlhDsaKeyPair.generate q v e ∧
      SlhDsaKeyPair.generate_with_rng q v r e = SlhDsaKeyPair.generate_with_rng q v s e) :=
  ⟨fun _ _ _ _ _ _ _ => ⟨rfl, rfl⟩,
   fun _ _ _ _ _ _ _ => ⟨rfl, rfl⟩,
   fun _ _ _ _ _ _ _ => ⟨rfl, rfl⟩⟩

/-- C10: The hybrid composer length-checks stored classical key material
before any cryptographic use: `encapsulate` fails with
`InvalidKeyMaterial` when `classical_public` is not 32 bytes, and
`decapsulate` fails with `InvalidKeyMaterial` when a present
`classical_secret` is not 32 bytes — in both cases uniformly over every
X25519, KEM and hash primitive, so no exchange or decapsulation runs. -/
theorem hybrid_classical_length_checks :
    (∀ (x : X25519Prim) (p : MlKemPrim) (h : Sha256Prim)
        (kp : HybridKemKeyPair) (os : Nat → Nat) (e : Bytes),
      kp.classical_public.length ≠ 32 →
      HybridKemKeyPair.encapsulate x p h kp os e
        = .error (.InvalidKeyMaterial "X25519 public key must be 32 bytes")) ∧
    (∀ (x : X25519Prim) (p : MlKemPrim) (h : Sha256Prim)
        (kp : HybridKemKeyPair) (s eph ct : Bytes),
      kp.classical_secret = some s → s.length ≠ 32 →
      HybridKemKeyPair.decapsulate x p h kp eph ct
        = .error (.InvalidKeyMaterial "X25519 secret must be 32 bytes")) := by
  constructor
  · intro x p h kp os e hlen
    simp only [HybridKemKeyPair.encapsulate, hlen, if_false]
  · intro x p h kp s eph ct hs hlen
    simp only [HybridKemKeyPair.decapsulate, hs, hlen, if_false]

theorem hybrid_classical_length_checks_instance :
    HybridKemKeyPair.encapsulate toyX25519 toyMlKem toySha256
        { variant := .X25519MlKem768, classical_public := [0],
          classical_secret := some [0],
          pqc_keypair := { variant := .MlKem768, public_key := [], secret_key := [] } }
        (fun _ => 0) []
      = .error (.InvalidKeyMaterial "X25519 public key must be 32 bytes") ∧
    HybridKemKeyPair.decapsulate toyX25519 toyMlKem toySha256
        { variant := .X25519MlKem768, classical_public := [0],
          classical_secret := some [0],
          pqc_keypair := { variant := .MlKem768, public_key := [], secret_key := [] } }
        [] []
      = .error (.InvalidKeyMaterial "X25519 secret must be 32 bytes") :=
  ⟨hybrid_classical_length_checks.1 toyX25519 toyMlKem toySha256
      { variant := .X25519MlKem768, classical_public := [0],
        classical_secret := some [0],
        pqc_keypair := { variant := .MlKem768, public_key := [], secret_key := [] } }
      (fun _ => 0) [] (by decide),
   hybrid_classical_length_checks.2 toyX25519 toyMlKem toySha256
      { variant := .X25519MlKem768, classical_public := [0],
        classical_secret := some [0],
        pqc_keypair := { variant := .MlKem768, public_key := [], secret_key := [] } }
      [0] [] [] rfl (by decide)⟩


/-- ML-DSA sign/verify round trip over the constructed key pair, for one
fixed variant. -/
theorem mldsaRoundtripAux (p : MlDsaPrim) (v : MlDsaVariant)
    (seed msg : Bytes) (hseed : seed.length = 32)
    (h1 : (p.vkEncode v seed).length = p.vkLen v)
    (h2 : p.sigOk v (p.sign v seed msg) = true)
    (h3 : p.verify v (p.vkEncode v seed) msg (p.sign v seed msg) = true) :
    MlDsaKeyPair.sign p (mldsaMakeKeypair p v seed) msg
        = .ok { signature := p.sign v seed msg, variant := v } ∧
    MlDsaKeyPair.verify p (mldsaMakeKeypair p v seed) msg
        { signature := p.sign v seed msg, variant := v } = .ok true := by
  cases v <;>
    exact ⟨by simp [MlDsaKeyPair.sign, mldsaMakeKeypair, mldsaSignImpl, hseed],
           by simp [MlDsaKeyPair.verify, mldsaMakeKeypair, mldsaVerifyImpl,
             h1, h2, h3]⟩

/-- SLH-DSA sign/verify round trip over the constructed key pair, for one
fixed variant. -/
theorem slhdsaRoundtripAux (q : SlhDsaPrim) (v : SlhDsaVariant)
    (e0 e1 msg sig : Bytes)
    (hsk : q.skOk v (q.keygen v e0).1 = true)
    (hvk : q.vkOk v (q.keygen v e0).2 = true)
    (hsig : q.trySign v (q.keygen v e0).1 e1 msg = some sig)
    (hsigOk : q.sigOk v sig = true)
    (hver : q.verify v (q.keygen v e0).2 msg sig = true) :
    SlhDsaKeyPair.sign q
        { variant := v, public_key := (q.keygen v e0).2,
          secret_key := (q.keygen v e0).1 } e1 msg
      = .ok { signature := sig, variant := v } ∧
    SlhDsaKeyPair.verify q
        { variant := v, public_key := (q.keygen v e0).2,
          secret_key := (q.keygen v e0).1 } msg
        { signature := sig, variant := v }
      = .ok true := by
  cases v <;>
    exact ⟨by simp [SlhDsaKeyPair.sign, slhdsaSignTyped, hsk, hsig],
           by simp [SlhDsaKeyPair.verify, slhdsaVerifyTyped, hvk, hsigOk, hver]⟩

/-- C3: For every variant of both signature families, every generated key
pair and every message, `sign` succeeds and `verify` on the resulting
signature returns `Ok(true)` (for primitives satisfying the FIPS 204/205
correctness contracts). -/
theorem sign_verify_roundtrip :
    (∀ (p : MlDsaPrim), p.SignCorrect →
      ∀ (v : MlDsaVariant) (os : Nat → Nat) (msg : Bytes) (kp : MlDsaKeyPair),
        MlDsaKeyPair.generate p v os = .ok kp →
        ∃ sig, MlDsaKeyPair.sign p kp msg = .ok sig ∧
          MlDsaKeyPair.verify p kp msg sig = .ok true) ∧
    (∀ (q : SlhDsaPrim), q.SignCorrect →
      ∀ (v : SlhDsaVariant) (e0 e1 msg : Bytes) (kp : SlhDsaKeyPair),
        SlhDsaKeyPair.generate q v e0 = .ok kp →
        ∃ sig, SlhDsaKeyPair.sign q kp e1 msg = .ok sig ∧
          SlhDsaKeyPair.verify q kp msg sig = .ok true) := by
  constructor
  · intro p hp v os msg kp hkp
    obtain ⟨h1, h2, h3⟩ := hp v (getrandomFill os 32) msg
    have haux := mldsaRoundtripAux p v (getrandomFill os 32) msg
      (getrandomFill_length os 32) h1 h2 h3
    have hkp2 : kp = mldsaMakeKeypair p v (getrandomFill os 32) := by
      cases v <;>
        (simp only [MlDsaKeyPair.generate, Except.ok.injEq] at hkp
         exact hkp.symm)
    subst hkp2
    exact ⟨_, haux.1, haux.2⟩
  · intro q hq v e0 e1 msg kp hkp
    obtain ⟨hsk, hvk, ⟨sig, hsig⟩, hprop⟩ := hq v e0 e1 msg
    obtain ⟨hsigOk, hver⟩ := hprop sig hsig
    have haux := slhdsaRoundtripAux q v e0 e1 msg sig hsk hvk hsig hsigOk hver
    have hkp2 : kp = { variant := v, public_key := (q.keygen v e0).2,
                       secret_key := (q.keygen v e0).1 } := by
      cases v <;>
        (simp only [SlhDsaKeyPair.generate, slhdsaGenerateTyped,
           Except.ok.injEq] at hkp
         exact hkp.symm)
    subst hkp2
    exact ⟨_, haux.1, haux.2⟩

theorem sign_verify_roundtrip_instance :
    (∃ sig, MlDsaKeyPair.sign toyMlDsa
          { variant := .MlDsa65, public_key := List.replicate 32 0,
            secret_key := getrandomFill (fun _ => 0) 32 } [10] = .ok sig ∧
        MlDsaKeyPair.verify toyMlDsa
          { variant := .MlDsa65, public_key := List.replicate 32 0,
            secret_key := getrandomFill (fun _ => 0) 32 } [10] sig = .ok true) ∧
    (∃ sig, SlhDsaKeyPair.sign toySlhDsa
          { variant := .Sha2_128s, public_key := [1], secret_key := [0] } [] [11]
            = .ok sig ∧
        SlhDsaKeyPair.verify toySlhDsa
          { variant := .Sha2_128s, public_key := [1], secret_key := [0] } [11] sig
            = .ok true) :=
  ⟨sign_verify_roundtrip.1 toyMlDsa toyMlDsa_signCorrect .MlDsa65 (fun _ => 0) [10]
      { variant := .MlDsa65, public_key := List.replicate 32 0,
        secret_key := getrandomFill (fun _ => 0) 32 } rfl,
   sign_verify_roundtrip.2 toySlhDsa toySlhDsa_signCorrect .Sha2_128s [] [] [11]
      { variant := .Sha2_128s, public_key := [1], secret_key := [0] } rfl⟩

/-- C4 counterexample: `MlDsaKeyPair::generate` stores the 32-byte seed as
the secret key (`kp.to_seed()`), so the generated ML-DSA-44 secret key has
length 32, not the Algorithm Catalog's 2560-byte secret-key size — even
when the primitive's verifying-key encoding has exactly the catalog
size. -/
theorem generated_secret_len_counterexample :
    (MlDsaKeyPair.generate sizedMlDsa .MlDsa44 (fun _ => 0)).map
        (fun kp => kp.secret_key.length) = .ok 32 ∧
    MlDsaVariant.MlDsa44.key_sizes.2 = 2560 ∧ (32 : Nat) ≠ 2560 :=
  ⟨rfl, rfl, by decide⟩

/-- C4 amended: for every variant in every family the generated public
key's length equals the Algorithm Catalog's published size, and for
SLH-DSA the secret key's length does too; the ML-DSA secret key is
instead the 32-byte seed, and the ML-KEM secret key is the primitive's
decapsulation-key encoding, stored without length validation (for
primitives whose encodings have the FIPS sizes). -/
theorem generated_key_sizes_amended :
    (∀ (p : MlKemPrim), p.EkSized →
      ∀ (v : MlKemVariant) (e : Bytes) (kp : MlKemKeyPair),
        MlKemKeyPair.generate p v e = .ok kp →
        kp.public_key.length = v.key_sizes.1 ∧
        kp.secret_key = (p.keygen v e).1) ∧
    (∀ (p : MlDsaPrim), p.VkSized →
      ∀ (v : MlDsaVariant) (os : Nat → Nat) (kp : MlDsaKeyPair),
        MlDsaKeyPair.generate p v os = .ok kp →
        kp.public_key.length = v.key_sizes.1 ∧ kp.secret_key.length = 32) ∧
    (∀ (q : SlhDsaPrim), q.KeySized →
      ∀ (v : SlhDsaVariant) (e : Bytes) (kp : SlhDsaKeyPair),
        SlhDsaKeyPair.generate q v e = .ok kp →
        kp.public_key.length = v.key_sizes.1 ∧
        kp.secret_key.length = v.key_sizes.2) := by
  refine ⟨?_, ?_, ?_⟩
  · intro p hsz v e kp hkp
    have hkp2 : kp = mlkemMakeKeypair v (p.keygen v e).2 (p.keygen v e).1 := by
      cases v <;>
        (simp only [MlKemKeyPair.generate, Except.ok.injEq] at hkp
         exact hkp.symm)
    subst hkp2
    exact ⟨hsz v e, rfl⟩
  · intro p hsz v os kp hkp
    have hkp2 : kp = mldsaMakeKeypair p v (getrandomFill os 32) := by
      cases v <;>
        (simp only [MlDsaKeyPair.generate, Except.ok.injEq] at hkp
         exact hkp.symm)
    subst hkp2
    exact ⟨hsz v (getrandomFill os 32), getrandomFill_length os 32⟩
  · intro q hsz v e kp hkp
    have hkp2 : kp = { variant := v, public_key := (q.keygen v e).2,
                       secret_key := (q.keygen v e).1 } := by
      cases v <;>
        (simp only [SlhDsaKeyPair.generate, slhdsaGenerateTyped,
           Except.ok.injEq] at hkp
         exact hkp.symm)
    subst hkp2
    exact ⟨(hsz v e).1, (hsz v e).2⟩

theorem generated_key_sizes_instance :
    ((List.replicate 1184 (0 : Nat)).length = MlKemVariant.MlKem768.key_sizes.1 ∧
      ([] : Bytes) = (sizedMlKem.keygen .MlKem768 []).1) ∧
    ((List.replicate 1952 (0 : Nat)).length = MlDsaVariant.MlDsa65.key_sizes.1 ∧
      (getrandomFill (fun _ => 0) 32).length = 32) ∧
    ((List.replicate 32 (0 : Nat)).length = SlhDsaVariant.Sha2_128s.key_sizes.1 ∧
      (List.replicate 64 (0 : Nat)).length = SlhDsaVariant.Sha2_128s.key_sizes.2) :=
  ⟨generated_key_sizes_amended.1 sizedMlKem sizedMlKem_ekSized .MlKem768 []
      { variant := .MlKem768, public_key := List.replicate 1184 0,
        secret_key := [] } rfl,
   generated_key_sizes_amended.2.1 sizedMlDsa sizedMlDsa_vkSized .MlDsa65
      (fun _ => 0)
      { variant := .MlDsa65, public_key := List.replicate 1952 0,
        secret_key := getrandomFill (fun _ => 0) 32 } rfl,
   generated_key_sizes_amended.2.2 sizedSlhDsa sizedSlhDsa_keySized .Sha2_128s []
      { variant := .Sha2_128s, public_key := List.replicate 32 0,
        secret_key := List.replicate 64 0 } rfl⟩

/-- ML-DSA `verify` dispatch: on variant match the call reduces to
`verify_impl` on the stored bytes. -/
theorem mldsaVerifyDispatch (p : MlDsaPrim) (v : MlDsaVariant)
    (pk sk msg sb : Bytes) :
    MlDsaKeyPair.verify p { variant := v, public_key := pk, secret_key := sk }
        msg { signature := sb, variant := v }
      = mldsaVerifyImpl p pk msg sb v := by
  cases v <;> simp [MlDsaKeyPair.verify]

/-- SLH-DSA `verify` dispatch: on variant match the call reduces to
`verify_typed` on the stored bytes. -/
theorem slhdsaVerifyDispatch (q : SlhDsaPrim) (v : SlhDsaVariant)
    (pk sk msg sb : Bytes) :
    SlhDsaKeyPair.verify q { variant := v, public_key := pk, secret_key := sk }
        msg { signature := sb, variant := v }
      = slhdsaVerifyTyped q pk msg sb v := by
  cases v <;> simp [SlhDsaKeyPair.verify]

/-- C5: In both signature families `verify` yields a `Verification`-kind
error exactly for caller/structural faults: a signature whose variant
differs from the key's, and (on variant match) public-key bytes or
signature bytes that fail structural decode; a structurally valid
signature is checked cryptographically and the boolean outcome is
returned as `Ok` — in particular a non-matching signature gives
`Ok(false)`, never an error. -/
theorem verify_error_discipline :
    (∀ (p : MlDsaPrim) (kp : MlDsaKeyPair) (msg : Bytes) (sig : MlDsaSignature),
      (sig.variant ≠ kp.variant →
        resultErrKind (MlDsaKeyPair.verify p kp msg sig) = some .verification) ∧
      (sig.variant = kp.variant →
        kp.public_key.length ≠ p.vkLen kp.variant ∨
          p.sigOk kp.variant sig.signature = false →
        resultErrKind (MlDsaKeyPair.verify p kp msg sig) = some .verification) ∧
      (sig.variant = kp.variant →
        kp.public_key.length = p.vkLen kp.variant →
        p.sigOk kp.variant sig.signature = true →
        MlDsaKeyPair.verify p kp msg sig
          = .ok (p.verify kp.variant kp.public_key msg sig.signature))) ∧
    (∀ (q : SlhDsaPrim) (kp : SlhDsaKeyPair) (msg : Bytes) (sig : SlhDsaSignature),
      (sig.variant ≠ kp.variant →
        resultErrKind (SlhDsaKeyPair.verify q kp msg sig) = some .verification) ∧
      (sig.variant = kp.variant →
        q.vkOk kp.variant kp.public_key = false ∨
          q.sigOk kp.variant sig.signature = false →
        resultErrKind (SlhDsaKeyPair.verify q kp msg sig) = some .verification) ∧
      (sig.variant = kp.variant →
        q.vkOk kp.variant kp.public_key = true →
        q.sigOk kp.variant sig.signature = true →
        SlhDsaKeyPair.verify q kp msg sig
          = .ok (q.verify kp.variant kp.public_key msg sig.signature))) := by
  constructor
  · intro p kp msg sig
    obtain ⟨kv, kpk, ksk⟩ := kp
    obtain ⟨sb, sv⟩ := sig
    refine ⟨?_, ?_, ?_⟩
    · intro hne
      simp only [MlDsaKeyPair.verify, if_pos hne, resultErrKind, CryptoError.kind]
    · intro heq hbad
      have hv : sv = kv := heq
      subst hv
      rw [mldsaVerifyDispatch]
      rcases hbad with hl | hs
      · simp [mldsaVerifyImpl, hl, resultErrKind, CryptoError.kind]
      · by_cases hlen : kpk.length = p.vkLen sv <;>
          simp [mldsaVerifyImpl, hlen, hs, resultErrKind, CryptoError.kind]
    · intro heq hlen hok
      have hv : sv = kv := heq
      subst hv
      rw [mldsaVerifyDispatch]
      simp [mldsaVerifyImpl, hlen, hok]
  · intro q kp msg sig
    obtain ⟨kv, kpk, ksk⟩ := kp
    obtain ⟨sb, sv⟩ := sig
    refine ⟨?_, ?_, ?_⟩
    · intro hne
      simp only [SlhDsaKeyPair.verify, if_pos hne, resultErrKind, CryptoError.kind]
    · intro heq hbad
      have hv : sv = kv := heq
      subst hv
      rw [slhdsaVerifyDispatch]
      rcases hbad with hl | hs
      · simp [slhdsaVerifyTyped, hl, resultErrKind, CryptoError.kind]
      · by_cases hvk : q.vkOk sv kpk = true <;>
          simp [slhdsaVerifyTyped, hvk, hs, resultErrKind, CryptoError.kind]
    · intro heq hvkOk hok
      have hv : sv = kv := heq
      subst hv
      rw [slhdsaVerifyDispatch]
      simp [slhdsaVerifyTyped, hvkOk, hok]

theorem verify_error_discipline_instance :
    (resultErrKind (MlDsaKeyPair.verify toyMlDsa
        { variant := .MlDsa44, public_key := List.replicate 32 0, secret_key := [] }
        [12] { signature := [7, 12], variant := .MlDsa65 }) = some .verification) ∧
    (resultErrKind (MlDsaKeyPair.verify toyMlDsa
        { variant := .MlDsa44, public_key := [], secret_key := [] }
        [12] { signature := [7, 12], variant := .MlDsa44 }) = some .verification) ∧
    (MlDsaKeyPair.verify toyMlDsa
        { variant := .MlDsa44, public_key := List.replicate 32 0, secret_key := [] }
        [12] { signature := [8], variant := .MlDsa44 } = .ok false) ∧
    (resultErrKind (SlhDsaKeyPair.verify toySlhDsa
        { variant := .Sha2_128s, public_key := [1], secret_key := [0] }
        [13] { signature := [9, 13], variant := .Sha2_192s }) = some .verification) ∧
    (resultErrKind (SlhDsaKeyPair.verify toySlhDsa
        { variant := .Sha2_128s, public_key := [], secret_key := [0] }
        [13] { signature := [9, 13], variant := .Sha2_128s }) = some .verification) ∧
    (SlhDsaKeyPair.verify toySlhDsa
        { variant := .Sha2_128s, public_key := [1], secret_key := [0] }
        [13] { signature := [8], variant := .Sha2_128s } = .ok false) :=
  ⟨(verify_error_discipline.1 toyMlDsa
      { variant := .MlDsa44, public_key := List.replicate 32 0, secret_key := [] }
      [12] { signature := [7, 12], variant := .MlDsa65 }).1 (by decide),
   (verify_error_discipline.1 toyMlDsa
      { variant := .MlDsa44, public_key := [], secret_key := [] }
      [12] { signature := [7, 12], variant := .MlDsa44 }).2.1 rfl
      (Or.inl (by decide)),
   (verify_error_discipline.1 toyMlDsa
      { variant := .MlDsa44, public_key := List.replicate 32 0, secret_key := [] }
      [12] { signature := [8], variant := .MlDsa44 }).2.2 rfl (by decide) rfl,
   (verify_error_discipline.2 toySlhDsa
      { variant := .Sha2_128s, public_key := [1], secret_key := [0] }
      [13] { signature := [9, 13], variant := .Sha2_192s }).1 (by decide),
   (verify_error_discipline.2 toySlhDsa
      { variant := .Sha2_128s, public_key := [], secret_key := [0] }
      [13] { signature := [9, 13], variant := .Sha2_128s }).2.1 rfl
      (Or.inl rfl),
   (verify_error_discipline.2 toySlhDsa
      { variant := .Sha2_128s, public_key := [1], secret_key := [0] }
      [13] { signature := [8], variant := .Sha2_128s }).2.2 rfl rfl rfl⟩

/-- C8 counterexample: ML-KEM `decapsulate` on a serialize/deserialize
round-tripped key pair (whose secret key is therefore the empty default)
fails with a `Decapsulation`-kind error — not `InvalidKeyMaterial` as the
claim states — because the empty bytes are rejected by
`DecapsulationKey::new_from_slice` inside the `Decapsulation`-mapped
path. -/
theorem deserialized_kem_decapsulate_kind_counterexample :
    resultErrKind (MlKemKeyPair.decapsulate cexMlKem
        (MlKemKeyPair.deserialize (MlKemKeyPair.serialize
          { variant := .MlKem512, public_key := [2], secret_key := [3] })) [4])
      = some .decapsulation ∧
    ErrKind.decapsulation ≠ ErrKind.invalidKeyMaterial :=
  ⟨rfl, by decide⟩

/-- C8 amended: serialization of every secret-bearing entity omits the
secret field (it is unchanged by any value of that field), so a
deserialized instance has its secret unset; hybrid `decapsulate` on such
an instance fails with `InvalidKeyMaterial`, while ML-KEM `decapsulate`
on such an instance also fails before using any key material — but with a
`Decapsulation`-kind error (its secret-key decoder rejecting the empty
default bytes), not `InvalidKeyMaterial`. -/
theorem serialization_secret_discipline :
    (∀ kp : MlKemKeyPair,
      (MlKemKeyPair.deserialize kp.serialize).secret_key = [] ∧
      ∀ s : Bytes,
        MlKemKeyPair.serialize { kp with secret_key := s } = kp.serialize) ∧
    (∀ enc : MlKemEncapsulated,
      (MlKemEncapsulated.deserialize enc.serialize).shared_secret = [] ∧
      ∀ s : Bytes,
        MlKemEncapsulated.serialize { enc with shared_secret := s }
          = enc.serialize) ∧
    (∀ kp : HybridKemKeyPair,
      (HybridKemKeyPair.deserialize kp.serialize).classical_secret = none ∧
      (HybridKemKeyPair.deserialize kp.serialize).pqc_keypair.secret_key = [] ∧
      ∀ s : Option Bytes,
        HybridKemKeyPair.serialize { kp with classical_secret := s }
          = kp.serialize) ∧
    (∀ enc : HybridEncapsulated,
      (HybridEncapsulated.deserialize enc.serialize).shared_secret = [] ∧
      ∀ s : Bytes,
        HybridEncapsulated.serialize { enc with shared_secret := s }
          = enc.serialize) ∧
    (∀ (x : X25519Prim) (p : MlKemPrim) (h : Sha256Prim)
        (kp : HybridKemKeyPair) (eph ct : Bytes),
      HybridKemKeyPair.decapsulate x p h
          (HybridKemKeyPair.deserialize kp.serialize) eph ct
        = .error (.InvalidKeyMaterial "secret key not available")) ∧
    (∀ (p : MlKemPrim) (kp : MlKemKeyPair) (ct : Bytes),
      (∀ v, p.dkValid v [] = false) →
      resultErrKind (MlKemKeyPair.decapsulate p
          (MlKemKeyPair.deserialize kp.serialize) ct)
        = some .decapsulation) := by
  refine ⟨fun kp => ⟨rfl, fun s => rfl⟩,
          fun enc => ⟨rfl, fun s => rfl⟩,
          fun kp => ⟨rfl, rfl, fun s => rfl⟩,
          fun enc => ⟨rfl, fun s => rfl⟩,
          fun x p h kp eph ct => rfl,
          ?_⟩
  intro p kp ct hdk
  obtain ⟨kv, kpk, ksk⟩ := kp
  cases kv <;>
    simp [MlKemKeyPair.decapsulate, MlKemKeyPair.deserialize,
      MlKemKeyPair.serialize, mlkemDecapsArm, hdk, resultErrKind,
      CryptoError.kind]

theorem serialization_secret_discipline_instance :
    (MlKemKeyPair.deserialize (MlKemKeyPair.serialize
        { variant := .MlKem768, public_key := [2], secret_key := [3] })).secret_key
      = [] ∧
    HybridKemKeyPair.decapsulate toyX25519 cexMlKem toySha256
        (HybridKemKeyPair.deserialize (HybridKemKeyPair.serialize
          { variant := .X25519MlKem768, classical_public := List.replicate 32 0,
            classical_secret := some (List.replicate 32 1),
            pqc_keypair := { variant := .MlKem768, public_key := [2],
                             secret_key := [3] } })) [] []
      = .error (.InvalidKeyMaterial "secret key not available") ∧
    resultErrKind (MlKemKeyPair.decapsulate cexMlKem
        (MlKemKeyPair.deserialize (MlKemKeyPair.serialize
          { variant := .MlKem768, public_key := [2], secret_key := [3] })) [])
      = some .decapsulation :=
  ⟨(serialization_secret_discipline.1
      { variant := .MlKem768, public_key := [2], secret_key := [3] }).1,
   serialization_secret_discipline.2.2.2.2.1 toyX25519 cexMlKem toySha256
      { variant := .X25519MlKem768, classical_public := List.replicate 32 0,
        classical_secret := some (List.replicate 32 1),
        pqc_keypair := { variant := .MlKem768, public_key := [2],
                         secret_key := [3] } } [] [],
   serialization_secret_discipline.2.2.2.2.2 cexMlKem
      { variant := .MlKem768, public_key := [2], secret_key := [3] } []
      (fun _ => rfl)⟩
